import Mathlib

/-!
Shallow embedding of the `roll` micro web framework (src/roll/__init__.py).

Python strings are `String`, Python `bytes` are `List Nat` (byte values),
Python dicts are insertion-ordered association lists with unique keys
(CPython 3.6+ dicts preserve insertion order).  Exceptions are modelled with
`Except`; the distinct Python exception classes that the code branches on
(`HttpError`, `KeyError`, `ValueError`, anything else) are the constructors
of `Exc`.  Async functions are modelled as plain functions: the event loop
interleaving is irrelevant to the per-request pipeline, which awaits each
call to completion before moving on.

External collaborators (httptools parser, kua router, urllib query parsing,
json encoding) are black boxes, modelled by their observable outputs:
parser callbacks arrive as `ParseEvent`s, `kua.Routes.match` is an abstract
function field `Roll.routesMatch` (returning `none` models `RouteError`),
and `json.dumps` output arrives as an already-serialized string.
-/

/-- UTF-8 encoding of a single Unicode code point (Python `str.encode()`
acts code point by code point). -/
def utf8Char (c : Nat) : List Nat :=
  if c < 0x80 then [c]
  else if c < 0x800 then [0xC0 + c / 0x40, 0x80 + c % 0x40]
  else if c < 0x10000 then
    [0xE0 + c / 0x1000, 0x80 + (c / 0x40) % 0x40, 0x80 + c % 0x40]
  else
    [0xF0 + c / 0x40000, 0x80 + (c / 0x1000) % 0x40, 0x80 + (c / 0x40) % 0x40,
     0x80 + c % 0x40]

/-- UTF-8 encoding of a Python string (`str.encode()`). -/
def utf8 (s : String) : List Nat :=
  (s.data.map (fun c => utf8Char c.toNat)).foldr (· ++ ·) []

/-- The bytes `\r\n`. -/
def crlf : List Nat := [13, 10]

/-- The `http.HTTPStatus` table (Python 3.6 stdlib): maps a known status
code to its reason phrase, `none` for an unknown code (where the Python
enum constructor `HTTPStatus(code)` raises `ValueError`). -/
def statusPhrase : Nat → Option String
  | 100 => some "Continue"
  | 101 => some "Switching Protocols"
  | 102 => some "Processing"
  | 200 => some "OK"
  | 201 => some "Created"
  | 202 => some "Accepted"
  | 203 => some "Non-Authoritative Information"
  | 204 => some "No Content"
  | 205 => some "Reset Content"
  | 206 => some "Partial Content"
  | 207 => some "Multi-Status"
  | 208 => some "Already Reported"
  | 226 => some "IM Used"
  | 300 => some "Multiple Choices"
  | 301 => some "Moved Permanently"
  | 302 => some "Found"
  | 303 => some "See Other"
  | 304 => some "Not Modified"
  | 305 => some "Use Proxy"
  | 307 => some "Temporary Redirect"
  | 308 => some "Permanent Redirect"
  | 400 => some "Bad Request"
  | 401 => some "Unauthorized"
  | 402 => some "Payment Required"
  | 403 => some "Forbidden"
  | 404 => some "Not Found"
  | 405 => some "Method Not Allowed"
  | 406 => some "Not Acceptable"
  | 407 => some "Proxy Authentication Required"
  | 408 => some "Request Timeout"
  | 409 => some "Conflict"
  | 410 => some "Gone"
  | 411 => some "Length Required"
  | 412 => some "Precondition Failed"
  | 413 => some "Request Entity Too Large"
  | 414 => some "Request-URI Too Long"
  | 415 => some "Unsupported Media Type"
  | 416 => some "Requested Range Not Satisfiable"
  | 417 => some "Expectation Failed"
  | 421 => some "Misdirected Request"
  | 422 => some "Unprocessable Entity"
  | 423 => some "Locked"
  | 424 => some "Failed Dependency"
  | 426 => some "Upgrade Required"
  | 428 => some "Precondition Required"
  | 429 => some "Too Many Requests"
  | 431 => some "Request Header Fields Too Large"
  | 500 => some "Internal Server Error"
  | 501 => some "Not Implemented"
  | 502 => some "Bad Gateway"
  | 503 => some "Service Unavailable"
  | 504 => some "Gateway Timeout"
  | 505 => some "HTTP Version Not Supported"
  | 506 => some "Variant Also Negotiates"
  | 507 => some "Insufficient Storage"
  | 508 => some "Loop Detected"
  | 510 => some "Not Extended"
  | 511 => some "Network Authentication Required"
  | _ => none

/-- A Python value that may sit in a body/message slot: either `bytes` or
`str` (the only two body types the code produces). -/
inductive Body
  | bytes (b : List Nat)
  | str (s : String)
deriving DecidableEq

/-- Python truthiness of a body value (empty `bytes`/`str` are falsy). -/
def Body.isTruthy : Body → Bool
  | .bytes b => decide (b ≠ [])
  | .str s => decide (s ≠ "")

/-- Bytes of a body value: `bytes` as-is, `str` UTF-8 encoded
(`.encode()`). -/
def Body.toBytes : Body → List Nat
  | .bytes b => b
  | .str s => utf8 s

/-- The data carried by a constructed `HttpError`: `self.status` (an
`HTTPStatus` member, kept as its numeric code) and `self.message`. -/
structure HttpErrorV where
  status : Nat
  message : Body
deriving DecidableEq

/-- A raised Python exception, as far as this code distinguishes them:
`HttpError`, `KeyError` (special-cased in `Roll.hook`), `ValueError`
(raised by `HTTPStatus(code)` on unknown codes), or any other exception.
Non-`HttpError` constructors carry the result of Python `str(error)`. -/
inductive Exc
  | httpError (e : HttpErrorV)
  | keyError (s : String)
  | valueError (s : String)
  | other (s : String)
deriving DecidableEq

/-- Python `str(error)`.  `HttpError.__init__` never passes arguments to
`Exception.__init__`, so `str` of an `HttpError` is the empty string. -/
def Exc.str : Exc → String
  | .httpError _ => ""
  | .keyError s => s
  | .valueError s => s
  | .other s => s

/-- Whether an exception is an `HttpError` (`isinstance(error, HttpError)`). -/
def Exc.isHttpError : Exc → Bool
  | .httpError _ => true
  | _ => false

/-- `HttpError.__init__(self, code, message=None)`:
`self.status = HTTPStatus(code)` (raises `ValueError` on an unknown code);
`self.message = message or self.status.phrase`. -/
def HttpError.init (code : Nat) (message : Option Body) : Except Exc HttpErrorV :=
  match statusPhrase code with
  | none => .error (.valueError (toString code ++ " is not a valid HTTPStatus"))
  | some ph =>
    let msg : Body :=
      match message with
      | some m => if m.isTruthy then m else Body.str ph
      | none => Body.str ph
    .ok ⟨code, msg⟩

/-- Lookup in an insertion-ordered dict (`d[key]` / `key in d`). -/
def dictLookup {α : Type} : List (String × α) → String → Option α
  | [], _ => none
  | (k, v) :: rest, key => if k = key then some v else dictLookup rest key

/-- `key in d`. -/
def dictContains {α : Type} (d : List (String × α)) (key : String) : Bool :=
  (dictLookup d key).isSome

/-- `d[key] = v`: overwrite in place if the key exists, else append
(CPython insertion-order semantics). -/
def dictSet {α : Type} : List (String × α) → String → α → List (String × α)
  | [], key, v => [(key, v)]
  | (k, w) :: rest, key, v =>
    if k = key then (k, v) :: rest else (k, w) :: dictSet rest key v

/-- `d.update(other)`: assign every pair of `other` in order. -/
def dictUpdate {α : Type} (d other : List (String × α)) : List (String × α) :=
  other.foldl (fun acc kv => dictSet acc kv.1 kv.2) d

/-- `class Request`: accumulator for the incoming message.  `__init__` only
sets `kwargs`, `headers` and `body`; `path`/`query_string`/`query`/`method`
are populated by the parser callbacks before dispatch (reading them earlier
would be an `AttributeError` in Python; here they default to empty). -/
structure Request where
  path : String := ""
  query_string : String := ""
  query : List (String × List String) := []
  method : String := ""
  kwargs : List (String × String) := []
  body : List Nat := []
  headers : List (String × String) := []
deriving DecidableEq

/-- `Request()`. -/
def Request.init : Request := {}

/-- `class Response`: `_status` holds the encoded wire status line fragment
(e.g. the bytes of `"200 OK"`), per the `status` property setter. -/
structure Response where
  _status : Option (List Nat)
  headers : List (String × String)
  body : Body
deriving DecidableEq

/-- The `status` property setter: `status_ = HTTPStatus(code)` (raises
`ValueError` on an unknown code), then
`self._status = '{} {}'.format(status_.value, status_.phrase).encode()`. -/
def Response.setStatus (r : Response) (code : Nat) : Except Exc Response :=
  match statusPhrase code with
  | none => .error (.valueError (toString code ++ " is not a valid HTTPStatus"))
  | some ph =>
    .ok { r with _status := some (utf8 (toString code ++ " " ++ ph)) }

/-- `Response.__init__`: `_status = None`, `body = b''`,
`self.status = HTTPStatus.OK` (through the setter), `headers = {}`. -/
def Response.init : Response :=
  let r : Response := { _status := none, headers := [], body := .bytes [] }
  let r := match r.setStatus 200 with | .ok r' => r' | .error _ => r
  { r with headers := [] }

/-- The `json` property setter: sets the `Content-Type` header and stores
the serialized document.  `json.dumps(value)` is an external collaborator;
its output arrives here as the already-serialized string `s`. -/
def Response.setJson (r : Response) (s : String) : Response :=
  { r with headers := dictSet r.headers "Content-Type" "application/json",
           body := .str s }

/-- Instrumentation of the dispatcher, invisible to application code:
which chains were entered, which interceptors were awaited, whether
routing (`self.dispatch`), the route handler, or `on_error` ran. -/
inductive Event
  | chainRun (name : String)
  | hookCall (name : String) (idx : Nat)
  | dispatchCall
  | handlerCall
  | onErrorCall
deriving DecidableEq

/-- The value an awaited interceptor returns, reduced to what the code
inspects: `None`, or a value with its Python truthiness. -/
inductive HookResult
  | pyNone
  | val (truthy : Bool)
deriving DecidableEq

/-- `if result:` on an interceptor's return value. -/
def HookResult.isTruthy : HookResult → Bool
  | .pyNone => false
  | .val t => t

/-- `if not result:` (negated) on `Roll.hook`'s return value, where no
returned result is Python `None`. -/
def optTruthy : Option HookResult → Bool
  | none => false
  | some v => v.isTruthy

/-- The mutable objects a hook or handler can reach: the connection's
`Request` and `Response` (passed by reference in Python, threaded
explicitly here), plus the `error` keyword passed to `error` hooks. -/
structure Ctx where
  request : Request
  response : Response
  error : Option HttpErrorV
deriving DecidableEq

/-- A registered async interceptor: may mutate the context, and either
returns a value or raises. -/
def Interceptor := Ctx → Ctx × Except Exc HookResult

/-- Route parameters extracted by the router. -/
def Params := List (String × String)

/-- A route handler `handler(req, resp, **params)`: may mutate the
context, and either returns (return value unused) or raises. -/
def Handler := Ctx → Params → Ctx × Except Exc Unit

/-- `class Roll`: the hook registry (`self.hooks`, a dict of lists filled
by `listen`) and the router facade.  `kua.Routes` is external:
`routesMatch path` is `self.routes.match(path)`, with `none` standing for
a raised `RouteError`.  `__init__` also calls `options(self)` from the
`roll.extensions` module (not part of the core source); whatever hooks or
routes it registers are captured here simply as the contents of the two
fields. -/
structure Roll where
  hooks : List (String × List Interceptor)
  routesMatch : String → Option (Params × List (String × Handler))

/-- `self.hooks.setdefault(name, []); self.hooks[name].append(func)`. -/
def hookAppend : List (String × List Interceptor) → String → Interceptor →
    List (String × List Interceptor)
  | [], name, f => [(name, [f])]
  | (n, fs) :: rest, name, f =>
    if n = name then (n, fs ++ [f]) :: rest
    else (n, fs) :: hookAppend rest name f

/-- `Roll.listen(name)` applied to `func` (the decorator's effect). -/
def Roll.listen (app : Roll) (name : String) (func : Interceptor) : Roll :=
  { app with hooks := hookAppend app.hooks name func }

/-- The `for func in self.hooks[name]` loop body of `Roll.hook`: await
each interceptor in order, short-circuit on a truthy result, propagate a
raised exception.  `idx` numbers the calls for the instrumentation log. -/
def runChain (name : String) (idx : Nat) (funcs : List Interceptor)
    (ctx : Ctx) (log : List Event) :
    Ctx × List Event × Except Exc (Option HookResult) :=
  match funcs with
  | [] => (ctx, log, .ok none)
  | f :: rest =>
    let log := log ++ [Event.hookCall name idx]
    match f ctx with
    | (ctx', .error e) => (ctx', log, .error e)
    | (ctx', .ok v) =>
      if v.isTruthy then (ctx', log, .ok (some v))
      else runChain name (idx + 1) rest ctx' log

/-- `Roll.hook(name, **kwargs)`.  The `try`/`except KeyError: pass`
encloses the whole loop, so it catches both the `self.hooks[name]` lookup
on an unregistered name and — as collateral — a `KeyError` raised by an
interceptor itself; in either case the method falls through and returns
`None`. -/
def Roll.hook (app : Roll) (name : String) (ctx : Ctx) (log : List Event) :
    Ctx × List Event × Except Exc (Option HookResult) :=
  let log := log ++ [Event.chainRun name]
  match dictLookup app.hooks name with
  | none => (ctx, log, .ok none)
  | some funcs =>
    match runChain name 0 funcs ctx log with
    | (ctx', log', .error (.keyError _)) => (ctx', log', .ok none)
    | r => r

/-- `Roll.dispatch(req)`: `self.routes.match(req.path)` (a `RouteError`
becomes `HttpError(404, req.path)`), then the method check
(`HttpError(405)` when the method is absent), then
`req.kwargs.update(params)` and the handler is returned.  A `ValueError`
from an `HttpError` constructor would propagate, as in Python. -/
def Roll.dispatch (app : Roll) (req : Request) :
    Except Exc (Request × Params × Handler) :=
  match app.routesMatch req.path with
  | none =>
    match HttpError.init 404 (some (.str req.path)) with
    | .ok e => .error (.httpError e)
    | .error e => .error e
  | some (params, handlers) =>
    match dictLookup handlers req.method with
    | none =>
      match HttpError.init 405 none with
      | .ok e => .error (.httpError e)
      | .error e => .error e
    | some h =>
      .ok ({ req with kwargs := dictUpdate req.kwargs params }, params, h)

/-- The normalization step of `Roll.on_error`:
`if not isinstance(error, HttpError): error = HttpError(500, str(error).encode())`.
`500` is a known status, so the constructor's error branch is unreachable. -/
def wrapError : Exc → HttpErrorV
  | .httpError e => e
  | e =>
    match HttpError.init 500 (some (.bytes (utf8 (Exc.str e)))) with
    | .ok he => he
    | .error _ => ⟨500, .str ""⟩

/-- The head of `Roll.on_error`: normalize to an `HttpError`
(`wrapError`), then `response.status = error.status` and
`response.body = error.message`.  The dead `.error` branch of the status
setter mirrors that `error.status` is always a valid `HTTPStatus` member
in Python. -/
def Roll.errorCtx (error : Exc) (ctx : Ctx) : Ctx :=
  let err := wrapError error
  let resp1 :=
    match ctx.response.setStatus err.status with
    | .ok r => r
    | .error _ => ctx.response
  { ctx with response := { resp1 with body := err.message }, error := some err }

/-- `Roll.on_error(error, response)`: normalize to an `HttpError`,
overwrite the response's status and body from it (`errorCtx`), then run
the `error` hook chain; if that raises, fall back to a hard-coded 500
whose body is the new error's text.  Total — the last line of defense
returns rather than raising. -/
def Roll.on_error (app : Roll) (error : Exc) (ctx : Ctx) (log : List Event) :
    Ctx × List Event :=
  match app.hook "error" (Roll.errorCtx error ctx) (log ++ [Event.onErrorCall]) with
  | (ctx3, log3, .ok _) => (ctx3, log3)
  | (ctx3, log3, .error e2) =>
    let resp3 :=
      match ctx3.response.setStatus 500 with
      | .ok r => r
      | .error _ => ctx3.response
    ({ ctx3 with response := { resp3 with body := .str (Exc.str e2) } }, log3)

/-- The first `try` block of `Roll.respond`: run the `request` hooks; when
they do not short-circuit, route and run the handler; any exception goes
to `on_error`. -/
def Roll.requestPhase (app : Roll) (ctx0 : Ctx) : Ctx × List Event :=
  match app.hook "request" ctx0 [] with
  | (ctx1, log1, .error e) => app.on_error e ctx1 log1
  | (ctx1, log1, .ok r) =>
    if optTruthy r then (ctx1, log1)
    else
      match app.dispatch ctx1.request with
      | .error e => app.on_error e ctx1 (log1 ++ [Event.dispatchCall])
      | .ok (req2, params, h) =>
        match h { ctx1 with request := req2 } params with
        | (ctx2, .ok _) => (ctx2, log1 ++ [Event.dispatchCall, Event.handlerCall])
        | (ctx2, .error e) =>
          app.on_error e ctx2 (log1 ++ [Event.dispatchCall, Event.handlerCall])

/-- The second `try` block of `Roll.respond`: unconditionally run the
`response` hooks; an exception escaping the hook runner goes to
`on_error`. -/
def Roll.responsePhase (app : Roll) (ctx : Ctx) (log : List Event) :
    Ctx × List Event :=
  match app.hook "response" ctx log with
  | (ctx3, log3, .ok _) => (ctx3, log3)
  | (ctx3, log3, .error e) => app.on_error e ctx3 log3

/-- `Roll.respond(req, resp)`: the two `try` blocks in sequence.  Total —
the method always returns the response to the writer. -/
def Roll.respond (app : Roll) (req : Request) (resp : Response) :
    Ctx × List Event :=
  match app.requestPhase ⟨req, resp, none⟩ with
  | (ctx2, log2) => app.responsePhase ctx2 log2

/-- `class Protocol`: the per-connection adapter, owning one
`Request`/`Response` pair and a reference to the app. -/
structure Protocol where
  app : Roll
  req : Request
  resp : Response

/-- `Protocol.__init__(app)`. -/
def Protocol.init (app : Roll) : Protocol :=
  { app := app, req := Request.init, resp := Response.init }

/-- One header line `b'%b: %b\r\n' % (key.encode(), str(value).encode())`
per entry, in dict insertion order. -/
def headerBytes (hs : List (String × String)) : List Nat :=
  (hs.map (fun kv => utf8 kv.1 ++ utf8 ": " ++ utf8 kv.2 ++ crlf)).foldr (· ++ ·) []

/-- `Protocol.write`: status line, body encoding, `Content-Length`
injection when absent, header lines, blank line, body — returning the
mutated response and the concatenation of the transport writes.  `none`
models the `TypeError` that `b'HTTP/1.1 %b\r\n' % None` would raise were
`_status` unset (unreachable: the `Response` constructor sets it). -/
def Protocol.write (resp : Response) : Option (Response × List Nat) :=
  match resp._status with
  | none => none
  | some st =>
    let statusLine := utf8 "HTTP/1.1 " ++ st ++ crlf
    let resp :=
      match resp.body with
      | .bytes _ => resp
      | .str s => { resp with body := .bytes (utf8 s) }
    let bodyBytes := resp.body.toBytes
    let resp :=
      if dictContains resp.headers "Content-Length" then resp
      else { resp with
             headers := dictSet resp.headers "Content-Length"
               (toString bodyBytes.length) }
    some (resp, statusLine ++ headerBytes resp.headers ++ crlf ++ bodyBytes)

/-- One callback from the external `httptools` parser, carrying the
already-decoded payload the black-box collaborators hand back:
`on_header`, `on_body`, `on_url` (with `parse_url`/`parse_qs` output), or
`on_message_complete` (with `parser.get_method()`). -/
inductive ParseEvent
  | header (name value : String)
  | bodyChunk (b : List Nat)
  | url (path : String) (queryString : String) (query : List (String × List String))
  | messageComplete (method : String)

/-- Whether a callback is `on_message_complete`. -/
def ParseEvent.isComplete : ParseEvent → Bool
  | .messageComplete _ => true
  | _ => false

/-- `Protocol.on_message_complete`: record the uppercased method, run
`self.app.respond(self.req, self.resp)` as a task, and — via the task's
done callback — `self.write()`.  Returns the mutated protocol, the
dispatch instrumentation log and the bytes written (none if `write`
failed, which cannot happen since `_status` is always set). -/
def Protocol.on_message_complete (p : Protocol) (method : String) :
    Protocol × List Event × List (List Nat) :=
  let req := { p.req with method := method.toUpper }
  let (ctx, log) := p.app.respond req p.resp
  match Protocol.write ctx.response with
  | some (resp', out) =>
    ({ p with req := ctx.request, resp := resp' }, log, [out])
  | none => ({ p with req := ctx.request, resp := ctx.response }, log, [])

/-- Dispatch of one parser callback to the matching `on_xxx` method. -/
def Protocol.step (acc : Protocol × List Event × List (List Nat))
    (e : ParseEvent) : Protocol × List Event × List (List Nat) :=
  let (p, log, outs) := acc
  match e with
  | .header name value =>
    ({ p with req := { p.req with headers := dictSet p.req.headers name value } },
     log, outs)
  | .bodyChunk b =>
    ({ p with req := { p.req with body := p.req.body ++ b } }, log, outs)
  | .url path qs query =>
    ({ p with req := { p.req with path := path, query_string := qs, query := query } },
     log, outs)
  | .messageComplete method =>
    let (p', log', outs') := p.on_message_complete method
    (p', log ++ log', outs ++ outs')

/-- The outcome of `self.parser.feed_data(data)` for one received buffer:
either the callbacks it fires, or an `HttpParserError` after the callbacks
that already fired. -/
inductive ParseOutcome
  | ok (events : List ParseEvent)
  | error (pre : List ParseEvent)

/-- `Protocol.data_received(data)`: feed the parser; on
`HttpParserError`, set a 400 `Bad Request` status and the body
`b'Unparsable request'` and write immediately — no dispatch, no hooks.
The dead branches mirror unreachable Python states (`400` is a known
status; `_status` is set when `write` runs). -/
def Protocol.data_received (p : Protocol) (outcome : ParseOutcome) :
    Protocol × List Event × List (List Nat) :=
  match outcome with
  | .ok events => events.foldl Protocol.step (p, [], [])
  | .error pre =>
    let (p, log, outs) := pre.foldl Protocol.step (p, [], [])
    let resp :=
      match p.resp.setStatus 400 with
      | .ok r => r
      | .error _ => p.resp
    let resp := { resp with body := .bytes (utf8 "Unparsable request") }
    match Protocol.write resp with
    | some (resp', out) => ({ p with resp := resp' }, log, outs ++ [out])
    | none => ({ p with resp := resp }, log, outs)

/-- A state-independent interceptor behaviour: return a fixed value after
an arbitrary mutation, or raise a fixed exception. -/
inductive Beh
  | ret (v : HookResult) (m : Ctx → Ctx)
  | raiseE (e : Exc)

/-- The interceptor realizing a behaviour. -/
def Beh.run : Beh → Interceptor
  | .ret v m => fun c => (m c, .ok v)
  | .raiseE e => fun c => (c, .error e)

/-- Fixture: a `request` hook that short-circuits plus a `response` hook
that raises an ordinary exception. -/
def w1App : Roll :=
  { hooks := [("request", [fun c => (c, .ok (.val true))]),
              ("response", [fun c => (c, .error (.other "resp boom"))])],
    routesMatch := fun _ => none }

/-- Fixture: a `response` hook that raises `KeyError`. -/
def cexRespHook : Interceptor := fun c => (c, .error (.keyError "boom"))

/-- Fixture: a short-circuiting `request` hook and the `KeyError`-raising
`response` hook, no `error` hooks, no routes. -/
def cexApp : Roll :=
  { hooks := [("request", [fun c => (c, .ok (.val true))]),
              ("response", [cexRespHook])],
    routesMatch := fun _ => none }

/-- Fixture: a chain whose first interceptor raises `KeyError` and whose
second would short-circuit if it were ever called. -/
def c4App : Roll :=
  { hooks := [("request",
      [fun c => (c, .error (.keyError "missing key")),
       fun c => (c, .ok (.val true))])],
    routesMatch := fun _ => none }

/-- Fixture: a falsy interceptor, then a truthy one, then one that would
raise if it were ever called. -/
def w2App : Roll :=
  { hooks := [("n", [Beh.run (.ret (.val false) id), Beh.run (.ret (.val true) id),
                     Beh.run (.raiseE (.other "never"))])],
    routesMatch := fun _ => none }

/-- Fixture: hooks on every lifecycle name, so that the 400 path provably
bypasses them all. -/
def w7App : Roll :=
  { hooks := [("request", [fun c => (c, .ok (.val true))]),
              ("response", [fun c => (c, .ok .pyNone)]),
              ("error", [fun c => (c, .ok .pyNone)])],
    routesMatch := fun _ => none }

/-- Fixture: an `error` hook that itself raises. -/
def w8App : Roll :=
  { hooks := [("error", [fun c => (c, .error (.other "fmt broke"))])],
    routesMatch := fun _ => none }

/-- Fixture: a handler raising `HttpError(403, "nope")`. -/
def w3Handler : Handler := fun c _ => (c, .error (.httpError ⟨403, .str "nope"⟩))

/-- Fixture: a handler raising a plain exception. -/
def w3PlainHandler : Handler := fun c _ => (c, .error (.other "boom"))

/-- Fixture: no hooks, one route table serving `GET` at every path. -/
def w3App : Roll :=
  { hooks := [], routesMatch := fun _ => some ([], [("GET", w3Handler)]) }

/-- Fixture: no hooks, the plain-raising handler at every path. -/
def w3PlainApp : Roll :=
  { hooks := [], routesMatch := fun _ => some ([], [("GET", w3PlainHandler)]) }

/-- Fixture: no hooks, no routes at all. -/
def w5App : Roll := { hooks := [], routesMatch := fun _ => none }

/-- Fixture: no hooks, a route table with only `POST` registered. -/
def w10App : Roll :=
  { hooks := [], routesMatch := fun _ => some ([], [("POST", w3Handler)]) }

/-- Fixture: a request line for `GET /missing`. -/
def reqMissing : Request := { Request.init with path := "/missing", method := "GET" }

/-- Fixture: a response with one application header, a string body, and no
explicit `Content-Length`. -/
def w6Resp : Response :=
  { _status := some (utf8 "200 OK"), headers := [("X", "y")], body := .str "hello" }

deriving instance DecidableEq for Except

/-- The events the `request`-phase (`respond`'s first `try` block) can
log: its own chain and hook calls, routing/handler markers, and the error
path. -/
def phase1Event (e : Event) : Prop :=
  e = Event.chainRun "request" ∨ (∃ i, e = Event.hookCall "request" i) ∨
  e = Event.dispatchCall ∨ e = Event.handlerCall ∨ e = Event.onErrorCall ∨
  e = Event.chainRun "error" ∨ ∃ i, e = Event.hookCall "error" i

/-- The events the `response`-phase can log after entering the `response`
chain. -/
def phase2TailEvent (e : Event) : Prop :=
  (∃ i, e = Event.hookCall "response" i) ∨ e = Event.onErrorCall ∨
  e = Event.chainRun "error" ∨ ∃ i, e = Event.hookCall "error" i

/-- Whether `Roll.hook`'s outcome makes `if not await self.hook(...)` skip
the routing step: a returned truthy result (a raised exception does not
short-circuit — it is caught and handled). -/
def shortCircuited (r : Except Exc (Option HookResult)) : Bool :=
  match r with
  | .ok v => optTruthy v
  | .error _ => false

theorem runChain_log_shape (name : String) (funcs : List Interceptor) :
    ∀ (idx : Nat) (ctx : Ctx) (log : List Event),
    ∃ t, (runChain name idx funcs ctx log).2.1 = log ++ t ∧
      ∀ e ∈ t, ∃ i, e = Event.hookCall name i := by
  induction funcs with
  | nil =>
    intro idx ctx log
    exact ⟨[], by simp [runChain], by simp⟩
  | cons f rest ih =>
    intro idx ctx log
    rcases hf : f ctx with ⟨ctx', r⟩
    cases r with
    | error e =>
      exact ⟨[Event.hookCall name idx], by simp [runChain, hf], by simp⟩
    | ok v =>
      by_cases ht : v.isTruthy = true
      · exact ⟨[Event.hookCall name idx], by simp [runChain, hf, ht], by simp⟩
      · obtain ⟨t, h1, h2⟩ := ih (idx + 1) ctx' (log ++ [Event.hookCall name idx])
        refine ⟨Event.hookCall name idx :: t, ?_, ?_⟩
        · simp only [runChain, hf, ht, if_false, Bool.false_eq_true]
          rw [h1]; simp
        · intro e he
          rcases List.mem_cons.mp he with he | he
          · exact ⟨idx, he⟩
          · exact h2 e he

theorem hook_log_shape (app : Roll) (name : String) (ctx : Ctx) (log : List Event) :
    ∃ t, (app.hook name ctx log).2.1 = log ++ Event.chainRun name :: t ∧
      ∀ e ∈ t, ∃ i, e = Event.hookCall name i := by
  cases hd : dictLookup app.hooks name with
  | none => exact ⟨[], by simp [Roll.hook, hd], by simp⟩
  | some funcs =>
    obtain ⟨t, h1, h2⟩ :=
      runChain_log_shape name funcs 0 ctx (log ++ [Event.chainRun name])
    rcases hrc : runChain name 0 funcs ctx (log ++ [Event.chainRun name]) with ⟨c', l', r'⟩
    rw [hrc] at h1
    refine ⟨t, ?_, h2⟩
    simp only [Roll.hook, hd]
    rw [hrc]
    cases r' with
    | ok v => simpa using h1
    | error e => cases e <;> simpa using h1

/-- Every event logged by `Roll.hook` beyond the incoming log is the
chain-entry marker or one of its own interceptor calls. -/
theorem hook_log_mem (app : Roll) (name : String) (ctx : Ctx) (log : List Event) :
    ∀ e ∈ (app.hook name ctx log).2.1,
      e ∈ log ∨ e = Event.chainRun name ∨ ∃ i, e = Event.hookCall name i := by
  obtain ⟨t, h1, h2⟩ := hook_log_shape app name ctx log
  intro e he
  rw [h1] at he
  rcases List.mem_append.mp he with he | he
  · exact Or.inl he
  · rcases List.mem_cons.mp he with he | he
    · exact Or.inr (Or.inl he)
    · exact Or.inr (Or.inr (h2 e he))

theorem on_error_log_shape (app : Roll) (error : Exc) (ctx : Ctx) (log : List Event) :
    ∃ t, (app.on_error error ctx log).2 =
        log ++ Event.onErrorCall :: Event.chainRun "error" :: t ∧
      ∀ e ∈ t, ∃ i, e = Event.hookCall "error" i := by
  unfold Roll.on_error
  obtain ⟨t, h1, h2⟩ :=
    hook_log_shape app "error" (Roll.errorCtx error ctx) (log ++ [Event.onErrorCall])
  rcases hk : app.hook "error" (Roll.errorCtx error ctx) (log ++ [Event.onErrorCall])
    with ⟨c3, l3, r3⟩
  rw [hk] at h1
  refine ⟨t, ?_, h2⟩
  cases r3 with
  | ok v => simpa using h1
  | error e2 => simpa using h1

/-- Every event logged by `Roll.on_error` beyond the incoming log is the
error-path marker, the `error` chain-entry marker, or an `error`
interceptor call. -/
theorem on_error_log_mem (app : Roll) (error : Exc) (ctx : Ctx) (log : List Event) :
    ∀ e ∈ (app.on_error error ctx log).2,
      e ∈ log ∨ e = Event.onErrorCall ∨ e = Event.chainRun "error" ∨
        ∃ i, e = Event.hookCall "error" i := by
  obtain ⟨t, h1, h2⟩ := on_error_log_shape app error ctx log
  intro e he
  rw [h1] at he
  rcases List.mem_append.mp he with he | he
  · exact Or.inl he
  · rcases List.mem_cons.mp he with he | he
    · exact Or.inr (Or.inl he)
    · rcases List.mem_cons.mp he with he | he
      · exact Or.inr (Or.inr (Or.inl he))
      · exact Or.inr (Or.inr (Or.inr (h2 e he)))

/-- Every event logged by the first `try` block of `respond` is a
request-phase event — in particular it is never the `response`
chain-entry marker. -/
theorem requestPhase_log_mem (app : Roll) (ctx0 : Ctx) :
    ∀ e ∈ (app.requestPhase ctx0).2, phase1Event e := by
  have hreq : ∀ (e : Event),
      (e ∈ ([] : List Event) ∨ e = Event.chainRun "request" ∨
        ∃ i, e = Event.hookCall "request" i) → phase1Event e := by
    rintro e (h | h | h)
    · cases h
    · exact Or.inl h
    · exact Or.inr (Or.inl h)
  unfold Roll.requestPhase
  rcases hk : app.hook "request" ctx0 [] with ⟨c1, l1, r1⟩
  have hl1 : ∀ e ∈ l1, phase1Event e := by
    intro e he
    have := hook_log_mem app "request" ctx0 [] e (by rw [hk]; exact he)
    exact hreq e this
  have honerr : ∀ (err : Exc) (c : Ctx) (l : List Event),
      (∀ e ∈ l, phase1Event e) →
      ∀ e ∈ (app.on_error err c l).2, phase1Event e := by
    intro err c l hl e he
    rcases on_error_log_mem app err c l e he with h | h | h | h
    · exact hl e h
    · exact Or.inr (Or.inr (Or.inr (Or.inr (Or.inl h))))
    · exact Or.inr (Or.inr (Or.inr (Or.inr (Or.inr (Or.inl h)))))
    · exact Or.inr (Or.inr (Or.inr (Or.inr (Or.inr (Or.inr h)))))
  have hl1d : ∀ e ∈ l1 ++ [Event.dispatchCall], phase1Event e := by
    intro e he
    rcases List.mem_append.mp he with he | he
    · exact hl1 e he
    · rcases List.mem_singleton.mp he with rfl
      exact Or.inr (Or.inr (Or.inl rfl))
  have hl1dh : ∀ e ∈ l1 ++ [Event.dispatchCall, Event.handlerCall], phase1Event e := by
    intro e he
    rcases List.mem_append.mp he with he | he
    · exact hl1 e he
    · rcases List.mem_cons.mp he with rfl | he
      · exact Or.inr (Or.inr (Or.inl rfl))
      · rcases List.mem_singleton.mp he with rfl
        exact Or.inr (Or.inr (Or.inr (Or.inl rfl)))
  cases r1 with
  | error e1 =>
    simpa using honerr e1 c1 l1 hl1
  | ok r =>
    by_cases htr : optTruthy r = true
    · simpa [htr] using hl1
    · simp only [htr, if_false, Bool.false_eq_true]
      cases hdisp : app.dispatch c1.request with
      | error e1 => simpa using honerr e1 c1 (l1 ++ [Event.dispatchCall]) hl1d
      | ok v =>
        rcases v with ⟨req2, params, h⟩
        rcases hh : h { c1 with request := req2 } params with ⟨c2, hr⟩
        cases hr with
        | ok u => simpa [hh] using hl1dh
        | error e2 =>
          simpa [hh] using
            honerr e2 c2 (l1 ++ [Event.dispatchCall, Event.handlerCall]) hl1dh

/-- The `response`-phase appends the `response` chain-entry marker and
then only response-chain or error-path events. -/
theorem responsePhase_shape (app : Roll) (c : Ctx) (l : List Event) :
    ∃ t, (app.responsePhase c l).2 = l ++ Event.chainRun "response" :: t ∧
      ∀ e ∈ t, phase2TailEvent e := by
  obtain ⟨t, h1, h2⟩ := hook_log_shape app "response" c l
  rcases hk : app.hook "response" c l with ⟨c3, l3, r3⟩
  rw [hk] at h1
  have h1' : l3 = l ++ Event.chainRun "response" :: t := by simpa using h1
  cases r3 with
  | ok v =>
    refine ⟨t, ?_, fun e he => Or.inl (h2 e he)⟩
    simp only [Roll.responsePhase]
    rw [hk]
    exact h1'
  | error e3 =>
    obtain ⟨t2, g1, g2⟩ := on_error_log_shape app e3 c3 l3
    refine ⟨t ++ Event.onErrorCall :: Event.chainRun "error" :: t2, ?_, ?_⟩
    · simp only [Roll.responsePhase]
      rw [hk]
      show (app.on_error e3 c3 l3).2 = _
      rw [g1, h1']
      simp
    · intro e he
      rcases List.mem_append.mp he with he | he
      · exact Or.inl (h2 e he)
      · rcases List.mem_cons.mp he with rfl | he
        · exact Or.inr (Or.inl rfl)
        · rcases List.mem_cons.mp he with rfl | he
          · exact Or.inr (Or.inr (Or.inl rfl))
          · exact Or.inr (Or.inr (Or.inr (g2 e he)))

/-- `Roll.hook` on an unregistered name: the dict lookup's `KeyError` is
caught and the method returns "no result". -/
theorem hook_unregistered (app : Roll) (name : String) (ctx : Ctx)
    (log : List Event) (h : dictLookup app.hooks name = none) :
    app.hook name ctx log = (ctx, log ++ [Event.chainRun name], .ok none) := by
  simp [Roll.hook, h]

/-- `on_error` with no `error` hooks registered: the normalized error's
status/body overwrite stands untouched. -/
theorem on_error_unregistered (app : Roll) (e : Exc) (ctx : Ctx)
    (log : List Event) (h : dictLookup app.hooks "error" = none) :
    app.on_error e ctx log =
      (Roll.errorCtx e ctx, log ++ [Event.onErrorCall, Event.chainRun "error"]) := by
  unfold Roll.on_error
  rw [hook_unregistered app "error" _ _ h]
  simp

/-- The `response`-hook phase with no `response` hooks registered changes
nothing. -/
theorem responsePhase_unregistered (app : Roll) (c : Ctx) (l : List Event)
    (h : dictLookup app.hooks "response" = none) :
    app.responsePhase c l = (c, l ++ [Event.chainRun "response"]) := by
  unfold Roll.responsePhase
  rw [hook_unregistered app "response" _ _ h]

/-- `r.setStatus 500` always succeeds with the formatted 500 line. -/
theorem setStatus_500 (r : Response) :
    r.setStatus 500 =
      .ok { r with _status := some (utf8 "500 Internal Server Error") } := rfl

/-- `r.setStatus 400` always succeeds with the formatted 400 line. -/
theorem setStatus_400 (r : Response) :
    r.setStatus 400 =
      .ok { r with _status := some (utf8 "400 Bad Request") } := rfl

/-- What the overwrite step of `on_error` does to the response, for any
error whose (normalized) status is a known code. -/
theorem errorCtx_sets (e : Exc) (ctx : Ctx) (ph : String)
    (hph : statusPhrase (wrapError e).status = some ph) :
    (Roll.errorCtx e ctx).response._status =
      some (utf8 (toString (wrapError e).status ++ " " ++ ph)) ∧
    (Roll.errorCtx e ctx).response.body = (wrapError e).message ∧
    (Roll.errorCtx e ctx).request = ctx.request := by
  unfold Roll.errorCtx
  simp [Response.setStatus, hph]

/-- Per-code-point UTF-8 never encodes to zero bytes. -/
theorem utf8Char_ne_nil (c : Nat) : utf8Char c ≠ [] := by
  unfold utf8Char
  split
  · simp
  · split
    · simp
    · split <;> simp

/-- The UTF-8 encoding of a non-empty string is non-empty. -/
theorem utf8_ne_nil (s : String) (h : s ≠ "") : utf8 s ≠ [] := by
  rcases s with ⟨data⟩
  cases data with
  | nil => exact absurd rfl h
  | cons c cs =>
    show utf8Char c.toNat ++ (cs.map (fun c => utf8Char c.toNat)).foldr (· ++ ·) [] ≠ []
    intro hx
    exact utf8Char_ne_nil c.toNat (List.append_eq_nil.mp hx).1

/-- The normalization step on an `HttpError` keeps it. -/
theorem wrapError_httpError (h : HttpErrorV) : wrapError (.httpError h) = h := rfl

/-- The normalization step wraps any other exception with a non-empty
text into `HttpError(500, str(error).encode())`. -/
theorem wrapError_nonHttp (e : Exc) (he : e.isHttpError = false)
    (hs : Exc.str e ≠ "") : wrapError e = ⟨500, .bytes (utf8 (Exc.str e))⟩ := by
  have htr : Body.isTruthy (.bytes (utf8 (Exc.str e))) = true := by
    simp [Body.isTruthy, utf8_ne_nil _ hs]
  have hsp : statusPhrase 500 = some "Internal Server Error" := rfl
  have hinit : HttpError.init 500 (some (.bytes (utf8 (Exc.str e)))) =
      .ok ⟨500, .bytes (utf8 (Exc.str e))⟩ := by
    simp [HttpError.init, hsp, htr]
  cases e with
  | httpError h => simp [Exc.isHttpError] at he
  | keyError s =>
    have hstep : wrapError (.keyError s) =
        (match HttpError.init 500 (some (.bytes (utf8 s))) with
         | Except.ok he => he
         | Except.error _ => ({ status := 500, message := .str "" } : HttpErrorV)) := rfl
    have hinit2 : HttpError.init 500 (some (.bytes (utf8 s))) =
        .ok ⟨500, .bytes (utf8 s)⟩ := hinit
    rw [hstep, hinit2]
    rfl
  | valueError s =>
    have hstep : wrapError (.valueError s) =
        (match HttpError.init 500 (some (.bytes (utf8 s))) with
         | Except.ok he => he
         | Except.error _ => ({ status := 500, message := .str "" } : HttpErrorV)) := rfl
    have hinit2 : HttpError.init 500 (some (.bytes (utf8 s))) =
        .ok ⟨500, .bytes (utf8 s)⟩ := hinit
    rw [hstep, hinit2]
    rfl
  | other s =>
    have hstep : wrapError (.other s) =
        (match HttpError.init 500 (some (.bytes (utf8 s))) with
         | Except.ok he => he
         | Except.error _ => ({ status := 500, message := .str "" } : HttpErrorV)) := rfl
    have hinit2 : HttpError.init 500 (some (.bytes (utf8 s))) =
        .ok ⟨500, .bytes (utf8 s)⟩ := hinit
    rw [hstep, hinit2]
    rfl

/-- `listen` appends the interceptor to the end of the chain registered
under its name (creating the chain if needed). -/
theorem hookAppend_lookup (hooks : List (String × List Interceptor))
    (name : String) (f : Interceptor) :
    dictLookup (hookAppend hooks name f) name =
      some ((dictLookup hooks name).getD [] ++ [f]) := by
  induction hooks with
  | nil => simp [hookAppend, dictLookup]
  | cons p rest ih =>
    rcases p with ⟨n, fs⟩
    by_cases hn : n = name
    · subst hn
      simp [hookAppend, dictLookup]
    · simp [hookAppend, dictLookup, hn, ih]

/-- `respond` for an app with none of the three per-request hook names
registered, whose routing raises: the error path's overwrite is the final
response. -/
theorem respond_noHooks_dispatchError (app : Roll) (req : Request)
    (resp : Response) (e : Exc)
    (h1 : dictLookup app.hooks "request" = none)
    (h2 : dictLookup app.hooks "response" = none)
    (h3 : dictLookup app.hooks "error" = none)
    (hd : app.dispatch req = .error e) :
    app.respond req resp =
      (Roll.errorCtx e ⟨req, resp, none⟩,
       [Event.chainRun "request", Event.dispatchCall, Event.onErrorCall,
        Event.chainRun "error", Event.chainRun "response"]) := by
  have hreq := hook_unregistered app "request" ⟨req, resp, none⟩ [] h1
  have hrp : app.requestPhase ⟨req, resp, none⟩ =
      app.on_error e ⟨req, resp, none⟩
        ([Event.chainRun "request"] ++ [Event.dispatchCall]) := by
    simp only [Roll.requestPhase, hreq, optTruthy]
    simp [hd]
  have hr2 : app.respond req resp =
      app.responsePhase (Roll.errorCtx e ⟨req, resp, none⟩)
        ([Event.chainRun "request"] ++ [Event.dispatchCall] ++
          [Event.onErrorCall, Event.chainRun "error"]) := by
    simp only [Roll.respond, hrp, on_error_unregistered app e _ _ h3]
  rw [hr2, responsePhase_unregistered app _ _ h2]
  simp

/-- `respond` for an app with none of the three per-request hook names
registered, whose routed handler raises: the error path's overwrite of
the handler-time context is the final response. -/
theorem respond_noHooks_handlerRaise (app : Roll) (req : Request)
    (resp : Response) (ps : Params) (tbl : List (String × Handler))
    (hnd : Handler) (e : Exc)
    (h1 : dictLookup app.hooks "request" = none)
    (h2 : dictLookup app.hooks "response" = none)
    (h3 : dictLookup app.hooks "error" = none)
    (hm : app.routesMatch req.path = some (ps, tbl))
    (hl : dictLookup tbl req.method = some hnd)
    (hh : ∀ c p, hnd c p = (c, .error e)) :
    app.respond req resp =
      (Roll.errorCtx e ⟨{ req with kwargs := dictUpdate req.kwargs ps }, resp, none⟩,
       [Event.chainRun "request", Event.dispatchCall, Event.handlerCall,
        Event.onErrorCall, Event.chainRun "error", Event.chainRun "response"]) := by
  have hreq := hook_unregistered app "request" ⟨req, resp, none⟩ [] h1
  have hdisp : app.dispatch req =
      .ok ({ req with kwargs := dictUpdate req.kwargs ps }, ps, hnd) := by
    simp [Roll.dispatch, hm, hl]
  have hrp : app.requestPhase ⟨req, resp, none⟩ =
      app.on_error e ⟨{ req with kwargs := dictUpdate req.kwargs ps }, resp, none⟩
        ([Event.chainRun "request"] ++ [Event.dispatchCall, Event.handlerCall]) := by
    simp only [Roll.requestPhase, hreq, optTruthy]
    simp [hdisp, hh]
  have hr2 : app.respond req resp =
      app.responsePhase
        (Roll.errorCtx e ⟨{ req with kwargs := dictUpdate req.kwargs ps }, resp, none⟩)
        ([Event.chainRun "request"] ++ [Event.dispatchCall, Event.handlerCall] ++
          [Event.onErrorCall, Event.chainRun "error"]) := by
    simp only [Roll.respond, hrp, on_error_unregistered app e _ _ h3]
  rw [hr2, responsePhase_unregistered app _ _ h2]
  simp

theorem phase1_ne_respRun {e : Event} (h : phase1Event e) :
    e ≠ Event.chainRun "response" := by
  rcases h with rfl | ⟨i, rfl⟩ | rfl | rfl | rfl | rfl | ⟨i, rfl⟩
  · decide
  · exact fun h => Event.noConfusion h
  · exact fun h => Event.noConfusion h
  · exact fun h => Event.noConfusion h
  · exact fun h => Event.noConfusion h
  · decide
  · exact fun h => Event.noConfusion h

theorem phase2Tail_ne {e : Event} (h : phase2TailEvent e) :
    e ≠ Event.chainRun "response" ∧ e ≠ Event.handlerCall ∧
      e ≠ Event.dispatchCall ∧ e ≠ Event.chainRun "request" := by
  rcases h with ⟨i, rfl⟩ | rfl | rfl | ⟨i, rfl⟩
  · exact ⟨fun h => Event.noConfusion h, fun h => Event.noConfusion h,
      fun h => Event.noConfusion h, fun h => Event.noConfusion h⟩
  · exact ⟨fun h => Event.noConfusion h, fun h => Event.noConfusion h,
      fun h => Event.noConfusion h, fun h => Event.noConfusion h⟩
  · exact ⟨by decide, fun h => Event.noConfusion h,
      fun h => Event.noConfusion h, by decide⟩
  · exact ⟨fun h => Event.noConfusion h, fun h => Event.noConfusion h,
      fun h => Event.noConfusion h, fun h => Event.noConfusion h⟩

/-- On a short-circuit of the `request` hooks, `requestPhase` is exactly
the hook call's outcome: no routing, no handler. -/
theorem requestPhase_shortCircuit (app : Roll) (ctx0 : Ctx)
    (h : shortCircuited (app.hook "request" ctx0 []).2.2 = true) :
    app.requestPhase ctx0 =
      ((app.hook "request" ctx0 []).1, (app.hook "request" ctx0 []).2.1) := by
  rcases hk : app.hook "request" ctx0 [] with ⟨c1, l1, r1⟩
  rw [hk] at h
  simp only [Roll.requestPhase, hk]
  cases r1 with
  | error e => exact absurd h (by simp [shortCircuited])
  | ok r =>
    simp only [shortCircuited] at h
    simp [h]

/-- C1.  In every run of `respond`, the `response` hook chain is entered
exactly once, strictly after the request-hook/routing/handler phase
(conjuncts 1 and 2); when the `request` hooks short-circuit, neither the
router nor any handler is ever invoked (conjunct 3); and an exception
with which the `response` hook runner completes is routed to `on_error`,
whose result `respond` returns instead of propagating the exception
(conjunct 4). -/
theorem c1_response_hooks_always_run
    (app : Roll) (req : Request) (resp : Response) (e2 : Exc)
    (c3 : Ctx) (l3 : List Event) :
    (∃ l1 l2, (app.respond req resp).2 = l1 ++ Event.chainRun "response" :: l2 ∧
        Event.chainRun "response" ∉ l1 ∧ Event.chainRun "response" ∉ l2 ∧
        Event.handlerCall ∉ l2 ∧ Event.dispatchCall ∉ l2 ∧
        Event.chainRun "request" ∉ l2) ∧
    List.count (Event.chainRun "response") (app.respond req resp).2 = 1 ∧
    (shortCircuited (app.hook "request" ⟨req, resp, none⟩ []).2.2 = true →
      Event.handlerCall ∉ (app.respond req resp).2 ∧
      Event.dispatchCall ∉ (app.respond req resp).2) ∧
    (app.hook "response" (app.requestPhase ⟨req, resp, none⟩).1
        (app.requestPhase ⟨req, resp, none⟩).2 = (c3, l3, .error e2) →
      app.respond req resp = app.on_error e2 c3 l3) := by
  rcases hrp : app.requestPhase ⟨req, resp, none⟩ with ⟨c2, l2p⟩
  obtain ⟨t, h1, h2⟩ := responsePhase_shape app c2 l2p
  have hlog : (app.respond req resp).2 = l2p ++ Event.chainRun "response" :: t := by
    simp only [Roll.respond, hrp]
    exact h1
  have hl2p : ∀ e ∈ l2p, phase1Event e := by
    intro e he
    exact requestPhase_log_mem app ⟨req, resp, none⟩ e (by rw [hrp]; exact he)
  have hnot1 : Event.chainRun "response" ∉ l2p :=
    fun hmem => absurd rfl (phase1_ne_respRun (hl2p _ hmem))
  have hnot2 : Event.chainRun "response" ∉ t :=
    fun hmem => absurd rfl (phase2Tail_ne (h2 _ hmem)).1
  refine ⟨⟨l2p, t, hlog, hnot1, hnot2,
      fun hmem => absurd rfl (phase2Tail_ne (h2 _ hmem)).2.1,
      fun hmem => absurd rfl (phase2Tail_ne (h2 _ hmem)).2.2.1,
      fun hmem => absurd rfl (phase2Tail_ne (h2 _ hmem)).2.2.2⟩, ?_, ?_, ?_⟩
  · rw [hlog]
    rw [List.count_append, List.count_cons_self,
        List.count_eq_zero.mpr hnot1, List.count_eq_zero.mpr hnot2]
  · intro hsc
    have hreq := requestPhase_shortCircuit app ⟨req, resp, none⟩ hsc
    rw [hrp] at hreq
    have hl2p' : ∀ e ∈ l2p, e ∈ ([] : List Event) ∨ e = Event.chainRun "request" ∨
        ∃ i, e = Event.hookCall "request" i := by
      intro e he
      have heq : l2p = (app.hook "request" ⟨req, resp, none⟩ []).2.1 :=
        congrArg Prod.snd hreq
      exact hook_log_mem app "request" ⟨req, resp, none⟩ [] e (heq ▸ he)
    constructor
    · rw [hlog]
      intro hmem
      rcases List.mem_append.mp hmem with hmem | hmem
      · rcases hl2p' _ hmem with h | h | ⟨i, h⟩
        · cases h
        · exact Event.noConfusion h
        · exact Event.noConfusion h
      · rcases List.mem_cons.mp hmem with h | hmem
        · exact Event.noConfusion h
        · exact absurd rfl (phase2Tail_ne (h2 _ hmem)).2.1
    · rw [hlog]
      intro hmem
      rcases List.mem_append.mp hmem with hmem | hmem
      · rcases hl2p' _ hmem with h | h | ⟨i, h⟩
        · cases h
        · exact Event.noConfusion h
        · exact Event.noConfusion h
      · rcases List.mem_cons.mp hmem with h | hmem
        · exact Event.noConfusion h
        · exact absurd rfl (phase2Tail_ne (h2 _ hmem)).2.2.1
  · intro hk
    have hk' : app.hook "response" c2 l2p = (c3, l3, Except.error e2) := hk
    simp only [Roll.respond, hrp, Roll.responsePhase, hk']

/-- Unfolding `runChain` on the empty chain. -/
theorem runChain_nil (name : String) (idx : Nat) (ctx : Ctx) (log : List Event) :
    runChain name idx [] ctx log = (ctx, log, .ok none) := rfl

/-- Unfolding `runChain` on a non-empty chain. -/
theorem runChain_cons (name : String) (idx : Nat) (f : Interceptor)
    (rest : List Interceptor) (ctx : Ctx) (log : List Event) :
    runChain name idx (f :: rest) ctx log =
      (match f ctx with
       | (ctx', .error e) => (ctx', log ++ [Event.hookCall name idx], .error e)
       | (ctx', .ok v) =>
         if v.isTruthy then (ctx', log ++ [Event.hookCall name idx], .ok (some v))
         else runChain name (idx + 1) rest ctx' (log ++ [Event.hookCall name idx])) := rfl

/-- Running a chain of behaviour-interceptors whose first truthy member
sits at position `k`: the loop awaits exactly positions `0..k` in order
and returns the truthy result. -/
theorem runChain_firstTruthy (name : String) :
    ∀ (behs : List Beh) (k : Nat) (hk : k < behs.length)
      (v : HookResult) (m : Ctx → Ctx) (idx : Nat) (ctx : Ctx) (log : List Event),
      behs.get ⟨k, hk⟩ = .ret v m → v.isTruthy = true →
      (∀ j (hj : j < behs.length), j < k →
        ∃ vj mj, behs.get ⟨j, hj⟩ = .ret vj mj ∧ vj.isTruthy = false) →
      (runChain name idx (behs.map Beh.run) ctx log).2.2 = .ok (some v) ∧
      (runChain name idx (behs.map Beh.run) ctx log).2.1 =
        log ++ (List.range (k + 1)).map (fun i => Event.hookCall name (idx + i)) := by
  intro behs
  induction behs with
  | nil =>
    intro k hk
    exact absurd hk (by simp)
  | cons b rest ih =>
    intro k hk v m idx ctx log hget htr hearlier
    cases k with
    | zero =>
      have hb : b = .ret v m := hget
      subst hb
      constructor
      · rw [List.map_cons, runChain_cons]
        simp [Beh.run, htr]
      · rw [List.map_cons, runChain_cons]
        simp [Beh.run, htr, List.range_succ]
    | succ k' =>
      obtain ⟨v0, m0, hb0, hf0⟩ := hearlier 0 (by simp) (Nat.succ_pos k')
      have hb : b = .ret v0 m0 := hb0
      subst hb
      have hstep : runChain name idx ((Beh.ret v0 m0 :: rest).map Beh.run) ctx log =
          runChain name (idx + 1) (rest.map Beh.run) (m0 ctx)
            (log ++ [Event.hookCall name idx]) := by
        rw [List.map_cons, runChain_cons]
        simp [Beh.run, hf0]
      have hget' : rest.get ⟨k', Nat.lt_of_succ_lt_succ hk⟩ = .ret v m := hget
      have hearlier' : ∀ j (hj : j < rest.length), j < k' →
          ∃ vj mj, rest.get ⟨j, hj⟩ = .ret vj mj ∧ vj.isTruthy = false := by
        intro j hj hjk
        exact hearlier (j + 1) (by simpa using Nat.succ_lt_succ hj)
          (Nat.succ_lt_succ hjk)
      obtain ⟨ih1, ih2⟩ := ih k' (Nat.lt_of_succ_lt_succ hk) v m (idx + 1) (m0 ctx)
        (log ++ [Event.hookCall name idx]) hget' htr hearlier'
      rw [hstep]
      refine ⟨ih1, ?_⟩
      rw [ih2]
      have hfun : (List.range (k' + 1)).map
            ((fun i => Event.hookCall name (idx + i)) ∘ Nat.succ) =
          (List.range (k' + 1)).map (fun i => Event.hookCall name (idx + 1 + i)) :=
        List.map_congr_left
          (fun a _ => congrArg (Event.hookCall name) (by omega))
      have hrhs : (List.range (k' + 1 + 1)).map (fun i => Event.hookCall name (idx + i)) =
          Event.hookCall name idx ::
            (List.range (k' + 1)).map (fun i => Event.hookCall name (idx + 1 + i)) := by
        rw [List.range_succ_eq_map, List.map_cons, List.map_map, hfun]
        simp
      rw [hrhs]
      simp

/-- C2.  The hook runner semantics: (1) `listen` registers at the end of
the chain for its name, so registration order is chain order; (2) for a
chain whose interceptors before position `k` return falsy results and
whose interceptor at `k` returns a truthy one, `Roll.hook` awaits exactly
interceptors `0..k` in registration order, never calls the later ones,
and returns the truthy result; (3) on a name with no registered chain it
returns "no result" without error. -/
theorem c2_hook_chain_semantics :
    (∀ (app : Roll) (name : String) (f : Interceptor),
      dictLookup (app.listen name f).hooks name =
        some ((dictLookup app.hooks name).getD [] ++ [f])) ∧
    (∀ (app : Roll) (name : String) (ctx : Ctx) (log : List Event)
       (behs : List Beh) (k : Nat) (hk : k < behs.length)
       (v : HookResult) (m : Ctx → Ctx),
      dictLookup app.hooks name = some (behs.map Beh.run) →
      behs.get ⟨k, hk⟩ = .ret v m → v.isTruthy = true →
      (∀ j (hj : j < behs.length), j < k →
        ∃ vj mj, behs.get ⟨j, hj⟩ = .ret vj mj ∧ vj.isTruthy = false) →
      (app.hook name ctx log).2.2 = .ok (some v) ∧
      (app.hook name ctx log).2.1 =
        log ++ Event.chainRun name :: (List.range (k + 1)).map (Event.hookCall name)) ∧
    (∀ (app : Roll) (name : String) (ctx : Ctx) (log : List Event),
      dictLookup app.hooks name = none →
      app.hook name ctx log = (ctx, log ++ [Event.chainRun name], .ok none)) := by
  refine ⟨?_, ?_, ?_⟩
  · intro app name f
    exact hookAppend_lookup app.hooks name f
  · intro app name ctx log behs k hk v m hlook hget htr hearlier
    obtain ⟨h1, h2⟩ := runChain_firstTruthy name behs k hk v m 0 ctx
      (log ++ [Event.chainRun name]) hget htr hearlier
    rcases hrc : runChain name 0 (behs.map Beh.run) ctx (log ++ [Event.chainRun name])
      with ⟨c', l', r'⟩
    rw [hrc] at h1 h2
    have h1' : r' = .ok (some v) := h1
    have h2' : l' = (log ++ [Event.chainRun name]) ++
        (List.range (k + 1)).map (fun i => Event.hookCall name (0 + i)) := h2
    subst h1'
    constructor
    · simp [Roll.hook, hlook, hrc]
    · simp only [Roll.hook, hlook, hrc]
      rw [h2']
      simp [Nat.zero_add]
  · intro app name ctx log h
    exact hook_unregistered app name ctx log h

/-- C2 witness: a concrete three-interceptor chain — falsy, truthy,
raising — stops after the second call, in order, with the truthy result;
an unregistered name yields no result; `listen` on an empty registry
creates the one-element chain. -/
theorem c2_witness :
    dictLookup ((Roll.mk [] (fun _ => none)).listen "n"
        (Beh.run (.ret (.val true) id))).hooks "n" =
      some [Beh.run (.ret (.val true) id)] ∧
    (w2App.hook "n" ⟨Request.init, Response.init, none⟩ []).2.2 =
      .ok (some (.val true)) ∧
    (w2App.hook "n" ⟨Request.init, Response.init, none⟩ []).2.1 =
      [Event.chainRun "n", Event.hookCall "n" 0, Event.hookCall "n" 1] ∧
    w2App.hook "missing" ⟨Request.init, Response.init, none⟩ [] =
      (⟨Request.init, Response.init, none⟩, [Event.chainRun "missing"], .ok none) := by
  have hb := c2_hook_chain_semantics
  have h1 := hb.1 (Roll.mk [] (fun _ => none)) "n" (Beh.run (.ret (.val true) id))
  have h2 := hb.2.1 w2App "n" ⟨Request.init, Response.init, none⟩ []
    [Beh.ret (.val false) id, Beh.ret (.val true) id, Beh.raiseE (.other "never")]
    1 (by decide) (.val true) id rfl rfl rfl
    (fun j hj hlt => by
      match j with
      | 0 => exact ⟨.val false, id, rfl, rfl⟩
      | Nat.succ j' => exact absurd hlt (by omega))
  have h3 := hb.2.2 w2App "missing" ⟨Request.init, Response.init, none⟩ [] rfl
  exact ⟨by simpa using h1, h2.1, by simpa using h2.2, h3⟩

/-- C4 (code bug).  The `try`/`except KeyError: pass` in `Roll.hook` is
documented as handling an unregistered name ("Nobody registered to this
event"), but it also catches a `KeyError` raised by an interceptor: here
the first `request` interceptor raises `KeyError`, the runner swallows it
— returning "no result" instead of propagating — and the second
interceptor of the chain is never awaited. -/
theorem c4_keyerror_swallowed :
    c4App.hook "request" ⟨Request.init, Response.init, none⟩ [] =
      (⟨Request.init, Response.init, none⟩,
       [Event.chainRun "request", Event.hookCall "request" 0], .ok none) := rfl

/-- C1 witness: with a short-circuiting `request` hook and a `response`
hook that raises an ordinary exception, `respond` never routes or runs a
handler, enters the `response` chain exactly once, and hands the raised
exception to the error path, returning its result. -/
theorem c1_witness :
    Event.handlerCall ∉ (w1App.respond Request.init Response.init).2 ∧
    Event.dispatchCall ∉ (w1App.respond Request.init Response.init).2 ∧
    List.count (Event.chainRun "response")
      (w1App.respond Request.init Response.init).2 = 1 ∧
    w1App.respond Request.init Response.init =
      w1App.on_error (.other "resp boom") ⟨Request.init, Response.init, none⟩
        [Event.chainRun "request", Event.hookCall "request" 0,
         Event.chainRun "response", Event.hookCall "response" 0] := by
  have h := c1_response_hooks_always_run w1App Request.init Response.init
    (.other "resp boom") ⟨Request.init, Response.init, none⟩
    [Event.chainRun "request", Event.hookCall "request" 0,
     Event.chainRun "response", Event.hookCall "response" 0]
  have hsc := h.2.2.1 rfl
  exact ⟨hsc.1, hsc.2, h.2.1, h.2.2.2 rfl⟩

/-- C1 counterexample to the claim as stated: the `response` hook
`cexRespHook` raises an exception (a `KeyError`), yet the error path is
never entered — no `onErrorCall` is logged, the `error` chain is never
run, and the response is returned unchanged — because `Roll.hook`'s
`except KeyError` swallows the exception. -/
theorem c1_counterexample :
    cexRespHook ⟨Request.init, Response.init, none⟩ =
      (⟨Request.init, Response.init, none⟩, .error (.keyError "boom")) ∧
    dictLookup cexApp.hooks "response" = some [cexRespHook] ∧
    (cexApp.respond Request.init Response.init).2 =
      [Event.chainRun "request", Event.hookCall "request" 0,
       Event.chainRun "response", Event.hookCall "response" 0] ∧
    Event.onErrorCall ∉ (cexApp.respond Request.init Response.init).2 ∧
    Event.chainRun "error" ∉ (cexApp.respond Request.init Response.init).2 ∧
    (cexApp.respond Request.init Response.init).1.response = Response.init := by
  have hlog : (cexApp.respond Request.init Response.init).2 =
      [Event.chainRun "request", Event.hookCall "request" 0,
       Event.chainRun "response", Event.hookCall "response" 0] := rfl
  refine ⟨rfl, rfl, hlog, ?_, ?_, rfl⟩
  · rw [hlog]
    decide
  · rw [hlog]
    decide

/-- C3.  Error normalization: (1) a non-`HttpError` with non-empty text
is wrapped into `HttpError(500, str(error).encode())`; (2) the error path
overwrites the response's status line and body from the (possibly
wrapped) error; (3) end to end, with no hooks registered, a handler
raising a plain exception yields a 500 response whose body is the
exception's text; (4) a handler raising `HttpError(403, "nope")` — which
is what `HttpError.init 403 (some (.str "nope"))` constructs (5) — yields
status `403 Forbidden` with body `"nope"`. -/
theorem c3_error_normalization :
    (∀ e : Exc, e.isHttpError = false → Exc.str e ≠ "" →
      wrapError e = ⟨500, .bytes (utf8 (Exc.str e))⟩) ∧
    (∀ (e : Exc) (ctx : Ctx) (ph : String),
      statusPhrase (wrapError e).status = some ph →
      (Roll.errorCtx e ctx).response._status =
        some (utf8 (toString (wrapError e).status ++ " " ++ ph)) ∧
      (Roll.errorCtx e ctx).response.body = (wrapError e).message) ∧
    (∀ (app : Roll) (req : Request) (resp : Response) (ps : Params)
       (tbl : List (String × Handler)) (hnd : Handler) (s : String),
      dictLookup app.hooks "request" = none →
      dictLookup app.hooks "response" = none →
      dictLookup app.hooks "error" = none →
      app.routesMatch req.path = some (ps, tbl) →
      dictLookup tbl req.method = some hnd →
      (∀ c p, hnd c p = (c, .error (.other s))) → s ≠ "" →
      (app.respond req resp).1.response._status =
        some (utf8 "500 Internal Server Error") ∧
      (app.respond req resp).1.response.body = .bytes (utf8 s)) ∧
    (∀ (app : Roll) (req : Request) (resp : Response) (ps : Params)
       (tbl : List (String × Handler)) (hnd : Handler),
      dictLookup app.hooks "request" = none →
      dictLookup app.hooks "response" = none →
      dictLookup app.hooks "error" = none →
      app.routesMatch req.path = some (ps, tbl) →
      dictLookup tbl req.method = some hnd →
      (∀ c p, hnd c p = (c, .error (.httpError ⟨403, .str "nope"⟩))) →
      (app.respond req resp).1.response._status = some (utf8 "403 Forbidden") ∧
      (app.respond req resp).1.response.body = .str "nope") ∧
    HttpError.init 403 (some (.str "nope")) = .ok ⟨403, .str "nope"⟩ := by
  refine ⟨wrapError_nonHttp, ?_, ?_, ?_, rfl⟩
  · intro e ctx ph hph
    exact ⟨(errorCtx_sets e ctx ph hph).1, (errorCtx_sets e ctx ph hph).2.1⟩
  · intro app req resp ps tbl hnd s h1 h2 h3 hm hl hh hs
    have hw : wrapError (.other s) = ⟨500, .bytes (utf8 s)⟩ :=
      wrapError_nonHttp (.other s) rfl hs
    have hr := respond_noHooks_handlerRaise app req resp ps tbl hnd (.other s)
      h1 h2 h3 hm hl hh
    have hph : statusPhrase (wrapError (.other s)).status =
        some "Internal Server Error" := by
      rw [hw]
      rfl
    have hset := errorCtx_sets (.other s)
      ⟨{ req with kwargs := dictUpdate req.kwargs ps }, resp, none⟩
      "Internal Server Error" hph
    rw [hr]
    refine ⟨?_, ?_⟩
    · rw [hset.1, hw]
      show some (utf8 (toString (500 : Nat) ++ " " ++ "Internal Server Error")) =
        some (utf8 "500 Internal Server Error")
      decide
    · rw [hset.2.1, hw]
  · intro app req resp ps tbl hnd h1 h2 h3 hm hl hh
    have hr := respond_noHooks_handlerRaise app req resp ps tbl hnd
      (.httpError ⟨403, .str "nope"⟩) h1 h2 h3 hm hl hh
    have hph : statusPhrase (wrapError (.httpError ⟨403, .str "nope"⟩)).status =
        some "Forbidden" := rfl
    have hset := errorCtx_sets (.httpError ⟨403, .str "nope"⟩)
      ⟨{ req with kwargs := dictUpdate req.kwargs ps }, resp, none⟩ "Forbidden" hph
    rw [hr]
    constructor
    · rw [hset.1]
      show some (utf8 (toString (403 : Nat) ++ " " ++ "Forbidden")) =
        some (utf8 "403 Forbidden")
      decide
    · exact hset.2.1

/-- C3 witness: the two end-to-end scenarios at concrete apps — a handler
raising a plain `"boom"` exception gives `500` with body `b"boom"`; a
handler raising `HttpError(403, "nope")` gives `403 Forbidden` with body
`"nope"`. -/
theorem c3_witness :
    wrapError (.other "boom") = ⟨500, .bytes (utf8 "boom")⟩ ∧
    (Roll.errorCtx (.other "boom")
        ⟨Request.init, Response.init, none⟩).response.body =
      .bytes (utf8 "boom") ∧
    ((w3PlainApp.respond reqMissing Response.init).1.response._status =
      some (utf8 "500 Internal Server Error") ∧
     (w3PlainApp.respond reqMissing Response.init).1.response.body =
      .bytes (utf8 "boom")) ∧
    ((w3App.respond reqMissing Response.init).1.response._status =
      some (utf8 "403 Forbidden") ∧
     (w3App.respond reqMissing Response.init).1.response.body = .str "nope") := by
  refine ⟨?_, ?_, ?_, ?_⟩
  · exact c3_error_normalization.1 (.other "boom") rfl (by decide)
  · exact ((c3_error_normalization.2.1 (.other "boom")
      ⟨Request.init, Response.init, none⟩ "Internal Server Error"
      (by decide)).2).trans (by decide)
  · exact c3_error_normalization.2.2.1 w3PlainApp reqMissing Response.init []
      [("GET", w3PlainHandler)] w3PlainHandler "boom" rfl rfl rfl rfl rfl
      (fun c p => rfl) (by decide)
  · exact c3_error_normalization.2.2.2.1 w3App reqMissing Response.init []
      [("GET", w3Handler)] w3Handler rfl rfl rfl rfl rfl (fun c p => rfl)

/-- C5.  Routing: (1) an unmatched path raises `HttpError(404, req.path)`
whose message is the literal request path (paths are non-empty; an HTTP
request target always is); (2) a matched path whose handler table lacks
the request method raises `HttpError(405)`; (3) a matched path with a
supported method returns the extracted parameters and that method's
handler, merging the parameters into `req.kwargs`; and (4) end to end
with no hooks, an unmatched path yields a `404 Not Found` response whose
body is the request path. -/
theorem c5_dispatch_routing (app : Roll) (req : Request) :
    (app.routesMatch req.path = none → req.path ≠ "" →
      app.dispatch req = .error (.httpError ⟨404, .str req.path⟩)) ∧
    (∀ params handlers, app.routesMatch req.path = some (params, handlers) →
      dictLookup handlers req.method = none →
      app.dispatch req = .error (.httpError ⟨405, .str "Method Not Allowed"⟩)) ∧
    (∀ params handlers h, app.routesMatch req.path = some (params, handlers) →
      dictLookup handlers req.method = some h →
      app.dispatch req =
        .ok ({ req with kwargs := dictUpdate req.kwargs params }, params, h)) ∧
    (dictLookup app.hooks "request" = none →
      dictLookup app.hooks "response" = none →
      dictLookup app.hooks "error" = none →
      app.routesMatch req.path = none → req.path ≠ "" →
      (app.respond req Response.init).1.response.body = .str req.path ∧
      (app.respond req Response.init).1.response._status =
        some (utf8 "404 Not Found")) := by
  have hsp404 : statusPhrase 404 = some "Not Found" := rfl
  have h404 : app.routesMatch req.path = none → req.path ≠ "" →
      app.dispatch req = .error (.httpError ⟨404, .str req.path⟩) := by
    intro hm hne
    have htr : Body.isTruthy (.str req.path) = true := by
      simp [Body.isTruthy, hne]
    simp [Roll.dispatch, hm, HttpError.init, hsp404, htr]
  refine ⟨h404, ?_, ?_, ?_⟩
  · intro params handlers hm hl
    simp only [Roll.dispatch, hm, hl]
    rfl
  · intro params handlers h hm hl
    simp [Roll.dispatch, hm, hl]
  · intro h1 h2 h3 hm hne
    have hr := respond_noHooks_dispatchError app req Response.init
      (.httpError ⟨404, .str req.path⟩) h1 h2 h3 (h404 hm hne)
    have hset := errorCtx_sets (.httpError ⟨404, .str req.path⟩)
      ⟨req, Response.init, none⟩ "Not Found" hsp404
    rw [hr]
    constructor
    · exact hset.2.1
    · rw [hset.1]
      show some (utf8 (toString (404 : Nat) ++ " " ++ "Not Found")) =
        some (utf8 "404 Not Found")
      decide

/-- C5 witness: at the concrete request `GET /missing` — with no routes,
dispatch raises the 404 whose message is `/missing` and the final
response body is `/missing`; with only `POST` registered, dispatch raises
the 405; with `GET` registered, dispatch returns the handler. -/
theorem c5_witness :
    w5App.dispatch reqMissing = .error (.httpError ⟨404, .str "/missing"⟩) ∧
    w10App.dispatch reqMissing =
      .error (.httpError ⟨405, .str "Method Not Allowed"⟩) ∧
    w3App.dispatch reqMissing = .ok (reqMissing, [], w3Handler) ∧
    (w5App.respond reqMissing Response.init).1.response.body = .str "/missing" ∧
    (w5App.respond reqMissing Response.init).1.response._status =
      some (utf8 "404 Not Found") := by
  have h5 := c5_dispatch_routing w5App reqMissing
  have h10 := c5_dispatch_routing w10App reqMissing
  have h3 := c5_dispatch_routing w3App reqMissing
  have hd404 := h5.1 rfl (by decide)
  have hd405 := h10.2.1 [] [("POST", w3Handler)] rfl rfl
  have hdok := h3.2.2.1 [] [("GET", w3Handler)] w3Handler rfl rfl
  have hresp := h5.2.2.2 rfl rfl rfl rfl (by decide)
  exact ⟨hd404, hd405, hdok, hresp.1, hresp.2⟩

/-- Setting a key makes it the key's value. -/
theorem dictLookup_dictSet {α : Type} (d : List (String × α)) (k : String) (v : α) :
    dictLookup (dictSet d k v) k = some v := by
  induction d with
  | nil => simp [dictSet, dictLookup]
  | cons p rest ih =>
    rcases p with ⟨k', v'⟩
    by_cases h : k' = k <;> simp [dictSet, dictLookup, h, ih]

/-- C6.  The response writer: when the application did not set a
`Content-Length` header, `write` encodes a non-`bytes` body to bytes
first, injects `Content-Length` equal to the byte length of that final
body, and emits status line, headers, a blank line, and the body
(conjunct 1); a `bytes` body is written as-is and a `str` body (e.g. the
output of `json.dumps` stored by the `json` setter, conjunct 4) is UTF-8
encoded (conjuncts 2–3); the constructor's empty body has byte length 0
(conjunct 5). -/
theorem c6_content_length (resp : Response) (st : List Nat)
    (hst : resp._status = some st)
    (hcl : dictContains resp.headers "Content-Length" = false) :
    (Protocol.write resp =
      some ({ resp with
                body := .bytes resp.body.toBytes,
                headers := dictSet resp.headers "Content-Length"
                  (toString resp.body.toBytes.length) },
            utf8 "HTTP/1.1 " ++ st ++ crlf ++
              headerBytes (dictSet resp.headers "Content-Length"
                (toString resp.body.toBytes.length)) ++ crlf ++
              resp.body.toBytes) ∧
     dictLookup (dictSet resp.headers "Content-Length"
        (toString resp.body.toBytes.length)) "Content-Length" =
       some (toString resp.body.toBytes.length)) ∧
    (∀ b : List Nat, Body.toBytes (.bytes b) = b) ∧
    (∀ s : String, Body.toBytes (.str s) = utf8 s) ∧
    (∀ (r : Response) (s : String), (Response.setJson r s).body = .str s ∧
      dictLookup (Response.setJson r s).headers "Content-Type" =
        some "application/json") ∧
    Response.init.body.toBytes.length = 0 := by
  refine ⟨⟨?_, dictLookup_dictSet _ _ _⟩, fun b => rfl, fun s => rfl,
    fun r s => ⟨rfl, dictLookup_dictSet _ _ _⟩, rfl⟩
  rcases resp with ⟨stf, hdrs, bd⟩
  simp only at hst hcl
  subst hst
  cases bd with
  | bytes b => simp [Protocol.write, Body.toBytes, hcl]
  | str s => simp [Protocol.write, Body.toBytes, hcl]

/-- C6 witness: writing a `200 OK` response with header `X: y`, body the
string `"hello"` and no explicit `Content-Length` injects
`Content-Length: 5` and emits exactly the expected wire bytes. -/
theorem c6_witness :
    Protocol.write w6Resp =
      some ({ _status := some (utf8 "200 OK"),
              headers := [("X", "y"), ("Content-Length", "5")],
              body := .bytes (utf8 "hello") },
            utf8 "HTTP/1.1 200 OK\r\nX: y\r\nContent-Length: 5\r\n\r\nhello") := by
  have h := c6_content_length w6Resp (utf8 "200 OK") rfl rfl
  exact h.1.1.trans (by decide)

/-- Parser callbacks other than `on_message_complete` only mutate the
request accumulator: no dispatch log, no writes, same response. -/
theorem foldl_step_preserves (pre : List ParseEvent) :
    ∀ (acc : Protocol × List Event × List (List Nat)),
      (∀ e ∈ pre, e.isComplete = false) →
      (pre.foldl Protocol.step acc).2 = acc.2 ∧
      (pre.foldl Protocol.step acc).1.resp = acc.1.resp := by
  induction pre with
  | nil =>
    intro acc h
    exact ⟨rfl, rfl⟩
  | cons e rest ih =>
    intro acc h
    have he : e.isComplete = false := h e (List.mem_cons_self e rest)
    have hrest : ∀ e' ∈ rest, e'.isComplete = false :=
      fun e' he' => h e' (List.mem_cons_of_mem e he')
    rw [List.foldl_cons]
    obtain ⟨i1, i2⟩ := ih (Protocol.step acc e) hrest
    have hstep : (Protocol.step acc e).2 = acc.2 ∧
        (Protocol.step acc e).1.resp = acc.1.resp := by
      rcases acc with ⟨p, log, outs⟩
      cases e with
      | header n v => exact ⟨rfl, rfl⟩
      | bodyChunk b => exact ⟨rfl, rfl⟩
      | url a b c => exact ⟨rfl, rfl⟩
      | messageComplete m => simp [ParseEvent.isComplete] at he
    exact ⟨i1.trans hstep.1, i2.trans hstep.2⟩

/-- `write` on a response whose status is set and whose body is already
`bytes`:  the output is status line, headers (with `Content-Length`
injected when absent), blank line, body. -/
theorem write_bytes_status (r : Response) (st b : List Nat)
    (hst : r._status = some st) (hb : r.body = .bytes b) :
    ∃ hdrs, Protocol.write r =
      some ({ r with headers := hdrs },
            utf8 "HTTP/1.1 " ++ st ++ crlf ++ headerBytes hdrs ++ crlf ++ b) := by
  rcases r with ⟨stf, hdrs0, bd⟩
  simp only at hst hb
  subst hst
  subst hb
  by_cases hc : dictContains hdrs0 "Content-Length" = true
  · exact ⟨hdrs0, by simp [Protocol.write, Body.toBytes, hc]⟩
  · refine ⟨dictSet hdrs0 "Content-Length" (toString b.length), ?_⟩
    simp only [Bool.not_eq_true] at hc
    simp [Protocol.write, Body.toBytes, hc]

/-- C7.  When `feed_data` raises `HttpParserError` (after callbacks that
did not complete a message), `data_received` catches it — it never
propagates — sets status `400 Bad Request` and body
`b'Unparsable request'`, and writes that response immediately: exactly
one write whose bytes carry the 400 status line and the body, while the
dispatch/hook instrumentation log stays empty — no dispatcher, handler,
or hook chain of any kind runs. -/
theorem c7_parse_error_400 (p : Protocol) (pre : List ParseEvent)
    (hpre : ∀ e ∈ pre, e.isComplete = false) :
    (p.data_received (.error pre)).2.1 = [] ∧
    (p.data_received (.error pre)).1.resp._status =
      some (utf8 "400 Bad Request") ∧
    (p.data_received (.error pre)).1.resp.body =
      .bytes (utf8 "Unparsable request") ∧
    ∃ hdrs, (p.data_received (.error pre)).2.2 =
      [utf8 "HTTP/1.1 " ++ utf8 "400 Bad Request" ++ crlf ++ headerBytes hdrs ++
        crlf ++ utf8 "Unparsable request"] := by
  obtain ⟨hacc, hresp⟩ := foldl_step_preserves pre (p, [], []) hpre
  rcases hfold : pre.foldl Protocol.step (p, [], []) with ⟨p', log', outs'⟩
  rw [hfold] at hacc hresp
  have hlog : log' = [] := congrArg Prod.fst hacc
  have houts : outs' = [] := congrArg Prod.snd hacc
  have hresp' : p'.resp = p.resp := hresp
  obtain ⟨hdrs, hw⟩ := write_bytes_status
    ({ p'.resp with _status := some (utf8 "400 Bad Request"),
                    body := .bytes (utf8 "Unparsable request") })
    (utf8 "400 Bad Request") (utf8 "Unparsable request") rfl rfl
  have hdr : p.data_received (.error pre) =
      ({ p' with resp :=
          { p'.resp with _status := some (utf8 "400 Bad Request"),
                         body := .bytes (utf8 "Unparsable request"),
                         headers := hdrs } },
       log', outs' ++ [utf8 "HTTP/1.1 " ++ utf8 "400 Bad Request" ++ crlf ++
         headerBytes hdrs ++ crlf ++ utf8 "Unparsable request"]) := by
    simp only [Protocol.data_received, hfold, setStatus_400, hw]
  rw [hdr, hlog, houts]
  exact ⟨rfl, rfl, rfl, hdrs, rfl⟩

/-- C7 witness: a concrete protocol over an app with hooks on every
chain, fed a rejected buffer after one header callback — the 400 is set
and written with an empty instrumentation log. -/
theorem c7_witness :
    ((Protocol.init w7App).data_received (.error [.header "Host" "x"])).2.1 = [] ∧
    ((Protocol.init w7App).data_received
        (.error [.header "Host" "x"])).1.resp._status =
      some (utf8 "400 Bad Request") ∧
    ((Protocol.init w7App).data_received
        (.error [.header "Host" "x"])).1.resp.body =
      .bytes (utf8 "Unparsable request") := by
  have h := c7_parse_error_400 (Protocol.init w7App) [.header "Host" "x"]
    (by
      intro e he
      rcases List.mem_singleton.mp he with rfl
      rfl)
  exact ⟨h.1, h.2.1, h.2.2.1⟩

/-- C8.  When the `error` hook chain itself completes with an exception,
`on_error` falls back to a hard-coded 500: the response's status becomes
the `500 Internal Server Error` line (in particular it is set), the body
becomes the new error's text, and the returned log is exactly the failing
chain run's log — no further hook is invoked.  `on_error` is a total
function, so it never propagates an exception to `respond`. -/
theorem c8_error_hook_failure_fallback (app : Roll) (e : Exc) (ctx : Ctx)
    (log : List Event) (c3 : Ctx) (l3 : List Event) (e2 : Exc)
    (hk : app.hook "error" (Roll.errorCtx e ctx) (log ++ [Event.onErrorCall]) =
      (c3, l3, .error e2)) :
    (app.on_error e ctx log).2 = l3 ∧
    (app.on_error e ctx log).1.response._status =
      some (utf8 "500 Internal Server Error") ∧
    (app.on_error e ctx log).1.response.body = .str (Exc.str e2) ∧
    ((app.on_error e ctx log).1.response._status).isSome = true := by
  have hoe : app.on_error e ctx log =
      ({ c3 with response :=
          { c3.response with
              _status := some (utf8 (toString (500 : Nat) ++ " " ++
                "Internal Server Error")),
              body := .str (Exc.str e2) } }, l3) := by
    unfold Roll.on_error
    rw [hk]
    rfl
  have hconv : utf8 (toString (500 : Nat) ++ " " ++ "Internal Server Error") =
      utf8 "500 Internal Server Error" := by decide
  rw [hoe, hconv]
  exact ⟨rfl, rfl, rfl, rfl⟩

/-- C8 witness: a concrete app whose only `error` hook raises — the
fallback leaves exactly the chain-run log, a hard-coded 500 status, and
the new error's text as body. -/
theorem c8_witness :
    (w8App.on_error (.other "orig") ⟨Request.init, Response.init, none⟩ []).2 =
      [Event.onErrorCall, Event.chainRun "error", Event.hookCall "error" 0] ∧
    (w8App.on_error (.other "orig")
        ⟨Request.init, Response.init, none⟩ []).1.response._status =
      some (utf8 "500 Internal Server Error") ∧
    (w8App.on_error (.other "orig")
        ⟨Request.init, Response.init, none⟩ []).1.response.body =
      .str "fmt broke" := by
  have h := c8_error_hook_failure_fallback w8App (.other "orig")
    ⟨Request.init, Response.init, none⟩ []
    (Roll.errorCtx (.other "orig") ⟨Request.init, Response.init, none⟩)
    [Event.onErrorCall, Event.chainRun "error", Event.hookCall "error" 0]
    (.other "fmt broke") rfl
  exact ⟨h.1, h.2.1, h.2.2.1⟩

/-- C9.  Status validation: (1) the `status` setter on a known code
stores its formatted status line; (2) on an unknown code it raises
`ValueError` at assignment time; (3) whenever the setter succeeds the
stored line comes from a known code; (4) the constructor's default is the
valid `200 OK`; (5) `HttpError` construction with an unknown code raises
`ValueError`; (6) every successfully constructed `HttpError` carries a
known status code. -/
theorem c9_status_validation :
    (∀ (r : Response) (c : Nat) (ph : String), statusPhrase c = some ph →
      r.setStatus c =
        .ok { r with _status := some (utf8 (toString c ++ " " ++ ph)) }) ∧
    (∀ (r : Response) (c : Nat), statusPhrase c = none →
      r.setStatus c =
        .error (.valueError (toString c ++ " is not a valid HTTPStatus"))) ∧
    (∀ (r : Response) (c : Nat) (r' : Response), r.setStatus c = .ok r' →
      ∃ ph, statusPhrase c = some ph ∧
        r'._status = some (utf8 (toString c ++ " " ++ ph))) ∧
    Response.init._status = some (utf8 "200 OK") ∧
    (∀ (c : Nat) (m : Option Body), statusPhrase c = none →
      HttpError.init c m =
        .error (.valueError (toString c ++ " is not a valid HTTPStatus"))) ∧
    (∀ (c : Nat) (m : Option Body) (er : HttpErrorV), HttpError.init c m = .ok er →
      er.status = c ∧ ∃ ph, statusPhrase c = some ph) := by
  refine ⟨?_, ?_, ?_, by decide, ?_, ?_⟩
  · intro r c ph h
    simp [Response.setStatus, h]
  · intro r c h
    simp [Response.setStatus, h]
  · intro r c r' h
    cases hc : statusPhrase c with
    | none => simp [Response.setStatus, hc] at h
    | some ph =>
      refine ⟨ph, rfl, ?_⟩
      simp [Response.setStatus, hc] at h
      rw [← h]
  · intro c m h
    simp [HttpError.init, h]
  · intro c m er h
    cases hc : statusPhrase c with
    | none => simp [HttpError.init, hc] at h
    | some ph =>
      simp [HttpError.init, hc] at h
      exact ⟨by rw [← h], ph, rfl⟩

/-- C9 witness: setting the known code 404 succeeds with the `404 Not
Found` line; setting the unknown code 999 raises `ValueError`, as does
constructing `HttpError(999)`. -/
theorem c9_witness :
    Response.init.setStatus 404 =
      .ok { Response.init with _status := some (utf8 "404 Not Found") } ∧
    Response.init.setStatus 999 =
      .error (.valueError "999 is not a valid HTTPStatus") ∧
    HttpError.init 999 none =
      .error (.valueError "999 is not a valid HTTPStatus") ∧
    (∃ ph, statusPhrase 404 = some ph ∧
      ({ Response.init with _status := some (utf8 "404 Not Found") }
          : Response)._status = some (utf8 (toString 404 ++ " " ++ ph))) ∧
    ((⟨404, .str "Not Found"⟩ : HttpErrorV).status = 404 ∧
      ∃ ph, statusPhrase 404 = some ph) := by
  have h := c9_status_validation
  refine ⟨?_, ?_, ?_, ?_, ?_⟩
  · exact (h.1 Response.init 404 "Not Found" rfl).trans (by decide)
  · exact (h.2.1 Response.init 999 rfl).trans (by decide)
  · exact (h.2.2.2.2.1 999 none rfl).trans (by decide)
  · exact h.2.2.1 Response.init 404
      { Response.init with _status := some (utf8 "404 Not Found") } (by decide)
  · exact h.2.2.2.2.2 404 none ⟨404, .str "Not Found"⟩ (by decide)

/-- C10.  (1) For every known status code, constructing an `HttpError`
with no message, an empty string message, or an empty bytes message sets
the message to the code's standard reason phrase; (2) hence a dispatch
rejected for its method raises `HttpError(405)` whose message is the
phrase `Method Not Allowed`; and (3) end to end with no hooks, such a
request yields a response whose body is `Method Not Allowed` rather than
being empty. -/
theorem c10_default_message_phrase :
    (∀ (c : Nat) (ph : String), statusPhrase c = some ph →
      HttpError.init c none = .ok ⟨c, .str ph⟩ ∧
      HttpError.init c (some (.str "")) = .ok ⟨c, .str ph⟩ ∧
      HttpError.init c (some (.bytes [])) = .ok ⟨c, .str ph⟩) ∧
    (∀ (app : Roll) (req : Request) (ps : Params) (tbl : List (String × Handler)),
      app.routesMatch req.path = some (ps, tbl) →
      dictLookup tbl req.method = none →
      app.dispatch req = .error (.httpError ⟨405, .str "Method Not Allowed"⟩)) ∧
    (∀ (app : Roll) (req : Request) (resp : Response) (ps : Params)
       (tbl : List (String × Handler)),
      dictLookup app.hooks "request" = none →
      dictLookup app.hooks "response" = none →
      dictLookup app.hooks "error" = none →
      app.routesMatch req.path = some (ps, tbl) →
      dictLookup tbl req.method = none →
      (app.respond req resp).1.response.body = .str "Method Not Allowed" ∧
      (app.respond req resp).1.response._status =
        some (utf8 "405 Method Not Allowed")) := by
  have h405 : ∀ (app : Roll) (req : Request) (ps : Params)
      (tbl : List (String × Handler)),
      app.routesMatch req.path = some (ps, tbl) →
      dictLookup tbl req.method = none →
      app.dispatch req = .error (.httpError ⟨405, .str "Method Not Allowed"⟩) := by
    intro app req ps tbl hm hl
    simp only [Roll.dispatch, hm, hl]
    rfl
  refine ⟨?_, h405, ?_⟩
  · intro c ph h
    refine ⟨?_, ?_, ?_⟩ <;> simp [HttpError.init, h, Body.isTruthy]
  · intro app req resp ps tbl h1 h2 h3 hm hl
    have hr := respond_noHooks_dispatchError app req resp
      (.httpError ⟨405, .str "Method Not Allowed"⟩) h1 h2 h3 (h405 app req ps tbl hm hl)
    have hset := errorCtx_sets (.httpError ⟨405, .str "Method Not Allowed"⟩)
      ⟨req, resp, none⟩ "Method Not Allowed" rfl
    rw [hr]
    constructor
    · exact hset.2.1
    · rw [hset.1]
      show some (utf8 (toString (405 : Nat) ++ " " ++ "Method Not Allowed")) =
        some (utf8 "405 Method Not Allowed")
      decide

/-- C10 witness: `HttpError(405)` carries the phrase, and the concrete
`GET`-to-`POST`-only-route request ends with body `Method Not Allowed`
and status `405 Method Not Allowed`. -/
theorem c10_witness :
    HttpError.init 405 none = .ok ⟨405, .str "Method Not Allowed"⟩ ∧
    HttpError.init 405 (some (.str "")) = .ok ⟨405, .str "Method Not Allowed"⟩ ∧
    w10App.dispatch reqMissing =
      .error (.httpError ⟨405, .str "Method Not Allowed"⟩) ∧
    (w10App.respond reqMissing Response.init).1.response.body =
      .str "Method Not Allowed" ∧
    (w10App.respond reqMissing Response.init).1.response._status =
      some (utf8 "405 Method Not Allowed") := by
  have h := c10_default_message_phrase
  have h1 := h.1 405 "Method Not Allowed" rfl
  have h2 := h.2.1 w10App reqMissing [] [("POST", w3Handler)] rfl rfl
  have h3 := h.2.2 w10App reqMissing Response.init [] [("POST", w3Handler)]
    rfl rfl rfl rfl rfl
  exact ⟨h1.1, h1.2.1, h2, h3.1, h3.2⟩

example : Response.init._status = some (utf8 "200 OK") := by decide
example : HttpError.init 405 none = .ok ⟨405, .str "Method Not Allowed"⟩ := rfl
example : HttpError.init 999 none =
    .error (.valueError "999 is not a valid HTTPStatus") := rfl
